import Mathlib

/-!
# Verification of the sysadmin network-diagnostics toolkit

Shallow embedding of the scanning / bulk-DNS engine of the repository
(`internal/network/scanner.go`, `internal/dns/bulk.go`) together with
proofs settling the specification claims.

Conventions of the embedding:
* Go strings are Lean `String`s; character-level manipulation
  (`strings.Split`, `strings.TrimSpace`, `strconv.Atoi`, ...) is modelled
  on the underlying `List Char`.
* Go `int` is modelled as `Int`; machine overflow never matters for the
  quantities involved (ports, octets, counts).
* Fallible Go functions returning `(T, error)` become `Except String T`;
  a `nil` error is `.ok`.
* Network I/O (TCP dial results) is abstracted by oracle functions passed
  as explicit parameters; concurrent collection of per-item results is
  determinised to input order, and the final explicit sort (present in the
  source) makes the order of host lists canonical.
-/

namespace Sysadmin

/-! ## Go string primitives -/

/-- `strings.Split s sep` for a one-character separator, on char lists.
Like Go, splitting the empty string yields `[[]]` (one empty field). -/
def splitOnChar (c : Char) : List Char → List (List Char)
  | [] => [[]]
  | a :: as =>
    if a = c then [] :: splitOnChar c as
    else
      match splitOnChar c as with
      | [] => [[a]]
      | h :: t => (a :: h) :: t

/-- `strings.TrimSpace`, modelled with `Char.isWhitespace` (the inputs of
interest only ever carry ASCII whitespace). -/
def trimSpace (s : List Char) : List Char :=
  ((s.dropWhile Char.isWhitespace).reverse.dropWhile Char.isWhitespace).reverse

/-- Numeric value of a list of decimal digit characters. -/
def digitsVal (s : List Char) : Nat :=
  s.foldl (fun acc c => acc * 10 + (c.toNat - '0'.toNat)) 0

/-- `strconv.Atoi`: optional sign, then one or more decimal digits,
nothing else; `none` models a non-nil error. -/
def atoi (s : List Char) : Option Int :=
  match s with
  | [] => none
  | '+' :: rest =>
    if rest ≠ [] ∧ rest.all Char.isDigit then some (digitsVal rest) else none
  | '-' :: rest =>
    if rest ≠ [] ∧ rest.all Char.isDigit then some (-(digitsVal rest : Int)) else none
  | _ =>
    if s.all Char.isDigit then some (digitsVal s) else none

/-! ## Port range parser (`ParsePortRange`, scanner.go:734-768) -/

/-- The list `[a, a+1, ..., b]` of Go's `for i := start; i <= end; i++`
loop (empty when `b < a`, which the caller has excluded). -/
def intRangeList (a b : Int) : List Int :=
  (List.range (b - a + 1).toNat).map (fun k : Nat => a + (k : Int))

/-- The comma branch of `ParsePortRange`: each token is trimmed,
`Atoi`-parsed and bounds-checked, in order; the first bad token aborts. -/
def parseCommaTokens : List (List Char) → Except String (List Int)
  | [] => .ok []
  | t :: ts =>
    match atoi (trimSpace t) with
    | none => .error ("invalid port: " ++ String.mk t)
    | some p =>
      if p < 1 ∨ p > 65535 then .error ("port out of range: must be 1-65535")
      else
        match parseCommaTokens ts with
        | .error e => .error e
        | .ok rest => .ok (p :: rest)

/-- `ParsePortRange` (scanner.go:734-768).  Mirrors the source exactly:
a string containing `'-'` takes the range branch; there, only a split
into exactly two fields is examined — any other field count falls
through the `if`, leaving `ports` nil and the error nil (`.ok []`). -/
def ParsePortRange (portRange : String) : Except String (List Int) :=
  let cs := portRange.data
  if cs.contains '-' then
    match splitOnChar '-' cs with
    | [p0, p1] =>
      match atoi (trimSpace p0), atoi (trimSpace p1) with
      | some s, some e =>
        if s > e ∨ s < 1 ∨ e > 65535 then
          .error "invalid port range: ports must be between 1-65535 and start <= end"
        else .ok (intRangeList s e)
      | _, _ => .error "invalid port range format"
    | _ => .ok []
  else
    parseCommaTokens (splitOnChar ',' cs)

/-- `strings.HasSuffix`. -/
def hasSuffix (s suf : List Char) : Bool := decide (suf <:+ s)

/-- `strings.TrimSuffix`. -/
def trimSuffix (s suf : List Char) : List Char :=
  if hasSuffix s suf then s.take (s.length - suf.length) else s

/-- Decimal digit characters of a natural number, most significant
first (the `%d` formatting of a non-negative value); fuel-based
recursion on successive divisions by 10. -/
def natCharsAux : Nat → Nat → List Char
  | 0, _ => []
  | fuel + 1, n =>
    if n < 10 then [Nat.digitChar n]
    else natCharsAux fuel (n / 10) ++ [Nat.digitChar (n % 10)]

/-- Decimal rendering of a natural number (`fmt.Sprintf` `%d`). -/
def natChars (n : Nat) : List Char := natCharsAux (n + 1) n

/-- `fmt.Sprintf "%s.%s.%s.%s"`: the dotted join of four fields. -/
def ipString (x0 x1 x2 x3 : List Char) : List Char :=
  x0 ++ '.' :: (x1 ++ '.' :: (x2 ++ '.' :: x3))

/-- One dotted-quad field as accepted by Go's `net.ParseCIDR` (≥ 1.17):
one to three decimal digits, no leading zero except `"0"` itself,
value at most 255. -/
def parseOctet (s : List Char) : Option Nat :=
  if s = [] ∨ ¬ (s.all Char.isDigit) ∨ s.length > 3 then none
  else if s.length > 1 ∧ s.head? = some '0' then none
  else if digitsVal s > 255 then none
  else some (digitsVal s)

/-- Dotted-quad IPv4 address parse. -/
def parseIPv4 (s : List Char) : Option (Nat × Nat × Nat × Nat) :=
  match splitOnChar '.' s with
  | [a, b, c, d] => do
    let va ← parseOctet a
    let vb ← parseOctet b
    let vc ← parseOctet c
    let vd ← parseOctet d
    some (va, vb, vc, vd)
  | _ => none

/-- Prefix length of a CIDR: decimal digits, no leading zero except
`"0"`, at most 32. -/
def parseMaskLen (s : List Char) : Option Nat :=
  if s = [] ∨ ¬ (s.all Char.isDigit) then none
  else if s.length > 1 ∧ s.head? = some '0' then none
  else if digitsVal s > 32 then none
  else some (digitsVal s)

/-- Modelled from Go's standard-library `net.ParseCIDR`, restricted to
IPv4 dotted-quad notation `A.B.C.D/m` (IPv6 inputs, which Go would also
accept, are outside the scope of every claim and are not modelled). -/
def parseCIDR (s : List Char) : Option ((Nat × Nat × Nat × Nat) × Nat) :=
  match splitOnChar '/' s with
  | [ipPart, maskPart] => do
    let q ← parseIPv4 ipPart
    let m ← parseMaskLen maskPart
    some (q, m)
  | _ => none

/-- 32-bit value of a dotted quad. -/
def ipToNat (q : Nat × Nat × Nat × Nat) : Nat :=
  ((q.1 * 256 + q.2.1) * 256 + q.2.2.1) * 256 + q.2.2.2

/-- Dotted-quad rendering of a 32-bit value (`net.IP.String` for a
4-byte address). -/
def natToIPChars (n : Nat) : List Char :=
  ipString (natChars (n / 2 ^ 24 % 256)) (natChars (n / 2 ^ 16 % 256))
    (natChars (n / 2 ^ 8 % 256)) (natChars (n % 256))

/-- The CIDR branch of `generateIPs` (scanner.go:698-701): start from
the masked network address and step `incrementIP` while the network
contains the address — i.e. every address from network to broadcast,
inclusive. -/
def cidrIPs (q : Nat × Nat × Nat × Nat) (m : Nat) : List (List Char) :=
  let size := 2 ^ (32 - m)
  let network := ipToNat q / size * size
  (List.range size).map (fun k : Nat => natToIPChars (network + k))

/-- `generateIPs` (scanner.go:678-705).  A `"/24"`-suffixed input takes
the shorthand branch: the base is split on `'.'` and only a four-field
base produces addresses — any other field count leaves `ips` nil with a
nil error.  Only inputs without the `"/24"` suffix reach `ParseCIDR`,
and only a `ParseCIDR` failure produces an error. -/
def generateIPs (network : String) : Except String (List String) :=
  let cs := network.data
  if hasSuffix cs "/24".data then
    let base := trimSuffix cs "/24".data
    match splitOnChar '.' base with
    | [b0, b1, b2, _b3] =>
      .ok ((List.range' 1 254).map (fun i => String.mk (ipString b0 b1 b2 (natChars i))))
    | _ => .ok []
  else
    match parseCIDR cs with
    | none => .error ("invalid network format: " ++ network)
    | some (q, m) => .ok ((cidrIPs q m).map String.mk)

/-! ## Scanner data model (scanner.go:18-59) -/

/-- `PortResult` (scanner.go:19-24). -/
structure PortResult where
  Port : Int
  Open : Bool
  Service : String
  Banner : String
deriving DecidableEq, Repr

/-- `HostResult` (scanner.go:27-32); `Latency` (a `time.Duration`) is an
integer nanosecond count. -/
structure HostResult where
  IP : String
  Alive : Bool
  Ports : List PortResult
  Latency : Int
deriving DecidableEq, Repr

/-- `ScanSummary` (scanner.go:44-51); the counts are list lengths, hence
`Nat`. -/
structure ScanSummary where
  TotalHosts : Nat
  LiveHosts : Nat
  TotalPorts : Nat
  OpenPorts : Nat
  HostsScanned : Nat
  PortsScanned : Nat
deriving DecidableEq, Repr

/-- `ScanResult` (scanner.go:35-41); the wall-clock fields `StartTime`
and `Duration` are not modelled. -/
structure ScanResult where
  Network : String
  Hosts : List HostResult
  Summary : ScanSummary
deriving DecidableEq, Repr

/-- The `commonServices` map (scanner.go:88-111); a missing key yields
Go's zero value `""`. -/
def commonServices (port : Int) : String :=
  match port with
  | 21 => "FTP"
  | 22 => "SSH"
  | 23 => "Telnet"
  | 25 => "SMTP"
  | 53 => "DNS"
  | 80 => "HTTP"
  | 110 => "POP3"
  | 135 => "RPC"
  | 139 => "NetBIOS"
  | 143 => "IMAP"
  | 443 => "HTTPS"
  | 445 => "SMB"
  | 993 => "IMAPS"
  | 995 => "POP3S"
  | 1433 => "MSSQL"
  | 3306 => "MySQL"
  | 3389 => "RDP"
  | 5432 => "PostgreSQL"
  | 5900 => "VNC"
  | 6379 => "Redis"
  | 8080 => "HTTP-Alt"
  | 9200 => "Elasticsearch"
  | _ => ""

/-! ## IP comparison and host sorting (scanner.go:718-731)

`compareIPs` parses the four dot-separated fields of each address with
`fmt.Sscanf "%d"` and compares them lexicographically, returning at the
first differing field.  Go would panic on an address with fewer than
four fields (`parts[i]` out of range); the embedding totalises that
case with the empty field, which `Sscanf` leaves at 0 — no claim
exercises it. -/

/-- `fmt.Sscanf` with verb `"%d"`: skip leading whitespace, optional
sign, then the longest digit run; a missing run leaves the scanned
variable at its zero value 0. -/
def sscanfInt (s : List Char) : Int :=
  let t := s.dropWhile Char.isWhitespace
  match t with
  | '-' :: rest => -((digitsVal (rest.takeWhile Char.isDigit) : Nat) : Int)
  | '+' :: rest => ((digitsVal (rest.takeWhile Char.isDigit) : Nat) : Int)
  | _ => ((digitsVal (t.takeWhile Char.isDigit) : Nat) : Int)

/-- The four numeric fields `n1..n4` scanned by `compareIPs`. -/
def ipKey (s : String) : Int × Int × Int × Int :=
  let parts := splitOnChar '.' s.data
  (sscanfInt (parts.getD 0 []), sscanfInt (parts.getD 1 []),
   sscanfInt (parts.getD 2 []), sscanfInt (parts.getD 3 []))

/-- Lexicographic `<` on the four scanned fields: the loop of
`compareIPs` returns `n1 < n2` at the first differing field and `false`
when all four agree. -/
def quadLt (x y : Int × Int × Int × Int) : Prop :=
  x.1 < y.1 ∨ (x.1 = y.1 ∧ (x.2.1 < y.2.1 ∨ (x.2.1 = y.2.1 ∧
    (x.2.2.1 < y.2.2.1 ∨ (x.2.2.1 = y.2.2.1 ∧ x.2.2.2 < y.2.2.2)))))

instance (x y : Int × Int × Int × Int) : Decidable (quadLt x y) := by
  unfold quadLt
  infer_instance

/-- `Scanner.compareIPs` (scanner.go:718-731) as a decidable proposition
(Go returns `bool`). -/
def compareIPs (ip1 ip2 : String) : Prop := quadLt (ipKey ip1) (ipKey ip2)

instance (ip1 ip2 : String) : Decidable (compareIPs ip1 ip2) := by
  unfold compareIPs
  infer_instance

/-- The non-strict order a `sort.Slice` with less-function `compareIPs`
establishes on the result: a host precedes another when the latter does
not compare strictly below it. -/
def hostLe (h1 h2 : HostResult) : Prop := ¬ compareIPs h2.IP h1.IP

instance (h1 h2 : HostResult) : Decidable (hostLe h1 h2) := by
  unfold hostLe
  infer_instance

instance : IsTotal HostResult hostLe where
  total h1 h2 := by
    unfold hostLe compareIPs quadLt
    omega

instance : IsTrans HostResult hostLe where
  trans h1 h2 h3 := by
    unfold hostLe compareIPs quadLt
    omega

/-- The `sort.Slice(allHosts, ...compareIPs...)` calls of `PingSweep`,
`NetworkDiscovery` and `NetworkDiscoveryWorkerPool` (scanner.go:185,
382, 497), determinised as an insertion sort with the induced
non-strict order. -/
def sortHosts (hosts : List HostResult) : List HostResult :=
  hosts.insertionSort hostLe

/-! ## Scan operations (scanner.go:113-525)

Network I/O is abstracted by three oracles: `alive ip` is the outcome
of `pingHostFast` for a host, `dial host port` the success of the TCP
dial inside `scanPortFast`, and `bannerOf host port` the banner grabbed
from an open port.  Per-batch channel collection order is
nondeterministic in Go; since every item is handled independently and
membership is order-free, the embedding collects results in input
order, and the final sort (present in the source) fixes the order of
the returned host list. -/

/-- `Scanner.scanPortFast` (scanner.go:582-601): a failed dial yields
the zero-valued closed result; a successful dial yields an open result
with the well-known service name and the grabbed banner. -/
def scanPortFast (dial : String → Int → Bool) (bannerOf : String → Int → String)
    (host : String) (port : Int) : PortResult :=
  if dial host port then
    { Port := port, Open := true, Service := commonServices port,
      Banner := bannerOf host port }
  else { Port := port, Open := false, Service := "", Banner := "" }

/-- The open-port results collected for one host: each requested port is
probed by `scanPortFast` and only `Open` results are sent to the
channel (scanner.go:323-345 and 445-463). -/
def openPortsOf (dial : String → Int → Bool) (bannerOf : String → Int → String)
    (ip : String) (ports : List Int) : List PortResult :=
  (ports.map (scanPortFast dial bannerOf ip)).filter (fun r => r.Open)

/-- The host list built by `PingSweep` (scanner.go:140-172): only hosts
whose fast ping succeeds are reported, with their measured latency and
no port data; batches concatenate in order, and the result is sorted. -/
def pingSweepHosts (alive : String → Bool) (lat : String → Int)
    (ips : List String) : List HostResult :=
  sortHosts (ips.filterMap (fun ip =>
    if alive ip then some { IP := ip, Alive := true, Ports := [], Latency := lat ip }
    else none))

/-- `Scanner.PingSweep` (scanner.go:114-202). -/
def PingSweep (alive : String → Bool) (lat : String → Int)
    (network : String) : Except String ScanResult :=
  match generateIPs network with
  | .error e => .error ("failed to generate IPs: " ++ e)
  | .ok ips =>
    let allHosts := pingSweepHosts alive lat ips
    .ok { Network := network, Hosts := allHosts,
          Summary := { TotalHosts := ips.length, LiveHosts := allHosts.length,
                       TotalPorts := 0, OpenPorts := 0,
                       HostsScanned := ips.length, PortsScanned := 0 } }

/-- The host list built by `NetworkDiscovery` (scanner.go:306-377): a
live host is reported when it has at least one open port *or* the
requested port list is empty (scanner.go:347). -/
def discoveryHosts (alive : String → Bool) (dial : String → Int → Bool)
    (bannerOf : String → Int → String) (ips : List String) (ports : List Int) :
    List HostResult :=
  sortHosts (ips.filterMap (fun ip =>
    if alive ip then
      let openPorts := openPortsOf dial bannerOf ip ports
      if openPorts.length > 0 ∨ ports.length = 0 then
        some { IP := ip, Alive := true, Ports := openPorts, Latency := 0 }
      else none
    else none))

/-- The summary shared by both discovery variants
(scanner.go:386-401 and 501-516). -/
def discoverySummary (ips : List String) (ports : List Int)
    (hosts : List HostResult) : ScanSummary :=
  { TotalHosts := ips.length, LiveHosts := hosts.length,
    TotalPorts := ports.length,
    OpenPorts := (hosts.map (fun h => h.Ports.length)).sum,
    HostsScanned := ips.length,
    PortsScanned := hosts.length * ports.length }

/-- `Scanner.NetworkDiscovery` (scanner.go:280-410). -/
def NetworkDiscovery (alive : String → Bool) (dial : String → Int → Bool)
    (bannerOf : String → Int → String) (network : String) (ports : List Int) :
    Except String ScanResult :=
  match generateIPs network with
  | .error e => .error ("failed to generate IPs: " ++ e)
  | .ok ips =>
    let allHosts := discoveryHosts alive dial bannerOf ips ports
    .ok { Network := network, Hosts := allHosts,
          Summary := discoverySummary ips ports allHosts }

/-- The host list built by `NetworkDiscoveryWorkerPool`
(scanner.go:432-493): unlike `discoveryHosts`, a live host is reported
only when it has at least one open port — there is no empty-port-list
escape (scanner.go:465). -/
def workerPoolHosts (alive : String → Bool) (dial : String → Int → Bool)
    (bannerOf : String → Int → String) (ips : List String) (ports : List Int) :
    List HostResult :=
  sortHosts (ips.filterMap (fun ip =>
    if alive ip then
      let portResults := openPortsOf dial bannerOf ip ports
      if portResults.length > 0 then
        some { IP := ip, Alive := true, Ports := portResults, Latency := 0 }
      else none
    else none))

/-- `Scanner.NetworkDiscoveryWorkerPool` (scanner.go:413-525); the
fixed worker count (50) and channel buffer size (100) affect only
scheduling, not the set of results. -/
def NetworkDiscoveryWorkerPool (alive : String → Bool) (dial : String → Int → Bool)
    (bannerOf : String → Int → String) (network : String) (ports : List Int) :
    Except String ScanResult :=
  match generateIPs network with
  | .error e => .error ("failed to generate IPs: " ++ e)
  | .ok ips =>
    let hosts := workerPoolHosts alive dial bannerOf ips ports
    .ok { Network := network, Hosts := hosts,
          Summary := discoverySummary ips ports hosts }

/-! ## The semaphore gate of the bounded probe executor
(scanner.go:136-159 and 224-245)

Both batched executors dispatch one goroutine per work item; each
goroutine sends on a buffered channel of capacity `C` (`sem <- ...`,
blocking while the channel holds `C` tokens), runs its probe body
(`pingHostFast` for `PingSweep` with `C = maxHostConcurrency`,
`scanPortFast` for `ScanPorts` with `C = maxPortConcurrency`), and
releases with the deferred `<-sem`.  The interleaving of one batch is
modelled as a transition system over the goroutines' phases. -/

/-- The phases of one dispatched probe goroutine: before its semaphore
send, between acquire and release (its probe body is executing), and
after its release. -/
inductive ProbePhase
  | idle
  | active
  | done
deriving DecidableEq, Repr

/-- A batch-execution state: the number of tokens currently in the
semaphore channel, and the phase of each dispatched goroutine. -/
structure BatchState where
  sem : Nat
  tasks : List ProbePhase
deriving DecidableEq, Repr

/-- The number of probe bodies executing simultaneously. -/
def activeProbes (s : BatchState) : Nat :=
  s.tasks.countP (fun p => decide (p = ProbePhase.active))

/-- One interleaving step of a batch with concurrency limit `C`:
`acquire i` is goroutine `i`'s send on the semaphore channel — enabled only
while the buffered channel holds fewer than `C` tokens — after which
its probe body executes; `release i` is its deferred `<-sem`. -/
inductive BatchStep (C : Nat) : BatchState → BatchState → Prop
  | acquire (s : BatchState) (i : Nat) :
      s.tasks.get? i = some ProbePhase.idle → s.sem < C →
      BatchStep C s ⟨s.sem + 1, s.tasks.set i ProbePhase.active⟩
  | release (s : BatchState) (i : Nat) :
      s.tasks.get? i = some ProbePhase.active →
      BatchStep C s ⟨s.sem - 1, s.tasks.set i ProbePhase.done⟩

/-- The batch's initial state: an empty semaphore channel and `n`
dispatched goroutines that have not yet acquired. -/
def initBatch (n : Nat) : BatchState :=
  { sem := 0, tasks := List.replicate n ProbePhase.idle }

/-- The states of a batch of `n` work items with limit `C` that an
execution can reach by any interleaving. -/
def BatchReachable (C n : Nat) (s : BatchState) : Prop :=
  Relation.ReflTransGen (BatchStep C) (initBatch n) s

/-- The inductive invariant: the token count equals the number of
executing probe bodies and never exceeds the capacity. -/
def BatchInv (C : Nat) (s : BatchState) : Prop :=
  s.sem = activeProbes s ∧ s.sem ≤ C

/-! ## Bulk DNS processing (`internal/dns/bulk.go`) -/

/-- `BulkResult` (bulk.go): the per-domain outcome.  `Error = none`
models a nil error; the time fields and the opaque `Data` payload are
not modelled. -/
structure BulkResult where
  Domain : String
  Success : Bool
  Error : Option String
deriving DecidableEq, Repr

/-- `BulkSummary` (bulk.go); `Duration` is not modelled. -/
structure BulkSummary where
  TotalDomains : Nat
  Successful : Nat
  Failed : Nat
  Results : List BulkResult
deriving DecidableEq, Repr

/-- `BulkProcessor.processSingleQuery` (bulk.go:575-591): it indexes
the first nameserver unconditionally (`ns := nameservers[0]`), so Go
panics on an empty nameserver list — modelled as `none`.
`queryErr domain ns` abstracts the outcome of `resolver.Query`
(`none` = nil error); `Success` is `err == nil`. -/
def processSingleQuery (queryErr : String → String → Option String)
    (nameservers : List String) (domain : String) : Option BulkResult :=
  match nameservers with
  | [] => none
  | ns :: _ =>
    let e := queryErr domain ns
    some { Domain := domain, Success := e.isNone, Error := e }

/-- The worker loop of `ProcessQuery`: every queued domain is processed
by `processSingleQuery` exactly once (collection order determinised to
queue order); a `none` (the Go panic) propagates. -/
def processAll (queryErr : String → String → Option String)
    (nameservers : List String) : List String → Option (List BulkResult)
  | [] => some []
  | d :: ds =>
    match processSingleQuery queryErr nameservers d with
    | none => none
    | some r =>
      match processAll queryErr nameservers ds with
      | none => none
      | some rs => some (r :: rs)

/-- `BulkProcessor.ProcessQuery` (bulk.go:398-454): a worker pool
drains the domain queue, one `BulkResult` per domain; `successful`
counts results with `Success`, and `Failed` is
`len(domains) - successful`.  A failed domain contributes a
`Success = false` result and does not halt the batch. -/
def ProcessQuery (queryErr : String → String → Option String)
    (domains : List String) (nameservers : List String) : Option BulkSummary :=
  match processAll queryErr nameservers domains with
  | none => none
  | some results =>
    let successful := results.countP (fun r => r.Success)
    some { TotalDomains := domains.length, Successful := successful,
           Failed := domains.length - successful, Results := results }

/-! ## Theorems -/

/-- `intRangeList` never repeats a value: it is the image of `List.range`
under the injective map `k ↦ a + k`. -/
theorem intRangeList_nodup (a b : Int) : (intRangeList a b).Nodup := by
  unfold intRangeList
  refine List.Nodup.map ?_ (List.nodup_range _)
  intro k1 k2 h
  dsimp only at h
  omega

/-- C5 — `ParsePortRange` worked examples: `"80,443,22"` parses to
`[80, 443, 22]` in input order, `"1-5"` expands to `[1,2,3,4,5]`, and
`"0"`, `"70000"`, `"5-1"` each return a non-nil error. -/
theorem parsePortRange_examples :
    ParsePortRange "80,443,22" = .ok [80, 443, 22] ∧
    ParsePortRange "1-5" = .ok [1, 2, 3, 4, 5] ∧
    (∃ e, ParsePortRange "0" = .error e) ∧
    (∃ e, ParsePortRange "70000" = .error e) ∧
    (∃ e, ParsePortRange "5-1" = .error e) :=
  ⟨rfl, rfl, ⟨_, rfl⟩, ⟨_, rfl⟩, ⟨_, rfl⟩⟩

/-- C6 counterexample — `ParsePortRange` does not deduplicate comma
lists: `"80,80"` succeeds with the duplicate-carrying list `[80, 80]`. -/
theorem parsePortRange_dup_counterexample :
    ParsePortRange "80,80" = .ok [80, 80] ∧ ¬ ([(80 : Int), 80].Nodup) :=
  ⟨rfl, by decide⟩

/-- C6 amended — only the range branch of `ParsePortRange` is
duplicate-free by construction: every successful parse of a
dash-containing input yields a list without duplicates (either the
empty fall-through list or a strictly increasing `start..end` range),
while comma lists are returned verbatim and may repeat values. -/
theorem parsePortRange_range_nodup (s : String) (l : List Int)
    (hc : s.data.contains '-' = true) (h : ParsePortRange s = .ok l) :
    l.Nodup := by
  unfold ParsePortRange at h
  simp only [hc, if_true] at h
  split at h
  · split at h
    · split at h
      · exact absurd h (by simp)
      · rw [Except.ok.injEq] at h
        exact h ▸ intRangeList_nodup _ _
    · exact absurd h (by simp)
  · rw [Except.ok.injEq] at h
    exact h ▸ List.nodup_nil

/-- Witness for C6 amended: the range parse `"1-5"` is accepted and its
result `[1,2,3,4,5]` is duplicate-free. -/
theorem parsePortRange_range_nodup_witness :
    ("1-5".data.contains '-' = true) ∧ ([(1 : Int), 2, 3, 4, 5].Nodup) :=
  ⟨by decide, parsePortRange_range_nodup "1-5" [1, 2, 3, 4, 5] (by decide) rfl⟩

/-- C7 counterexample — `"1-2-3"` is not rejected: the dash branch only
examines a split into exactly two fields, so a three-field dash string
falls through with `ports` still nil and a nil error (`.ok []`). -/
theorem parsePortRange_dashdash_counterexample :
    ParsePortRange "1-2-3" = .ok [] ∧ (ParsePortRange "1-2-3").isOk = true :=
  ⟨rfl, by decide⟩

/-- C7 amended — malformed dash inputs are rejected only when they split
on `'-'` into exactly two fields (non-numeric field, or bounds violated:
`start > end`, `start < 1`, `end > 65535`); a dash-containing input with
any other field count is accepted with nil error and an empty port list. -/
theorem parsePortRange_dash_errors :
    (∀ s : String, s.data.contains '-' = true →
      (splitOnChar '-' s.data).length ≠ 2 → ParsePortRange s = .ok []) ∧
    (∀ (s : String) (p0 p1 : List Char), s.data.contains '-' = true →
      splitOnChar '-' s.data = [p0, p1] →
      (atoi (trimSpace p0) = none ∨ atoi (trimSpace p1) = none) →
      ∃ e, ParsePortRange s = .error e) ∧
    (∀ (s : String) (p0 p1 : List Char) (a b : Int),
      s.data.contains '-' = true →
      splitOnChar '-' s.data = [p0, p1] →
      atoi (trimSpace p0) = some a → atoi (trimSpace p1) = some b →
      (a > b ∨ a < 1 ∨ b > 65535) →
      ∃ e, ParsePortRange s = .error e) := by
  refine ⟨?_, ?_, ?_⟩
  · intro s hc hlen
    unfold ParsePortRange
    simp only [hc, if_true]
    split
    · simp_all
    · rfl
  · intro s p0 p1 hc hsp hbad
    unfold ParsePortRange
    simp only [hc, if_true, hsp]
    rcases hbad with h0 | h1
    · rw [h0]
      rcases atoi (trimSpace p1) with _ | v <;> exact ⟨_, rfl⟩
    · rw [h1]
      rcases atoi (trimSpace p0) with _ | v <;> exact ⟨_, rfl⟩
  · intro s p0 p1 a b hc hsp ha hb hbound
    unfold ParsePortRange
    simp only [hc, if_true, hsp, ha, hb]
    rw [if_pos hbound]
    exact ⟨_, rfl⟩

/-- Witness for C7 amended: `"a-b"` splits into the two non-numeric
fields `a` and `b` and is rejected with a non-nil error. -/
theorem parsePortRange_dash_errors_witness :
    ("a-b".data.contains '-' = true) ∧ ∃ e, ParsePortRange "a-b" = .error e :=
  ⟨by decide, parsePortRange_dash_errors.2.1 "a-b" ['a'] ['b']
    (by decide) (by decide) (Or.inl (by decide))⟩

/-! ## Address enumeration (`generateIPs`, scanner.go:678-705) -/

/-- Digit characters rendered by `Nat.digitChar` below 10 satisfy
`Char.isDigit`. -/
theorem digitChar_isDigit {m : Nat} (h : m < 10) : (Nat.digitChar m).isDigit = true := by
  interval_cases m <;> decide

/-- Every character produced by `natCharsAux` is a decimal digit. -/
theorem mem_natCharsAux_isDigit {fuel n : Nat} {c : Char}
    (h : c ∈ natCharsAux fuel n) : c.isDigit = true := by
  induction fuel generalizing n with
  | zero => simp [natCharsAux] at h
  | succ fuel ih =>
    unfold natCharsAux at h
    split at h
    · rename_i hn
      simp only [List.mem_singleton] at h
      exact h ▸ digitChar_isDigit hn
    · rcases List.mem_append.1 h with h1 | h2
      · exact ih h1
      · simp only [List.mem_singleton] at h2
        exact h2 ▸ digitChar_isDigit (Nat.mod_lt _ (by omega))

/-- The decimal rendering of a number never contains a dot. -/
theorem dot_not_mem_natChars (n : Nat) : '.' ∉ natChars n := by
  intro h
  have := mem_natCharsAux_isDigit h
  simp at this

/-- Definitional unfolding of `splitOnChar` on a cons cell. -/
theorem splitOnChar_cons (c a : Char) (as : List Char) :
    splitOnChar c (a :: as) =
      if a = c then [] :: splitOnChar c as
      else match splitOnChar c as with
        | [] => [[a]]
        | h :: t => (a :: h) :: t := rfl

/-- Splitting a separator-free string yields that single field. -/
theorem splitOnChar_no_sep {c : Char} {s : List Char} (h : c ∉ s) : splitOnChar c s = [s] := by
  induction s with
  | nil => rfl
  | cons a as ih =>
    have hne : ¬ (a = c) := fun hh => h (hh ▸ List.mem_cons_self a as)
    have hrest : c ∉ as := fun hh => h (List.mem_cons_of_mem a hh)
    rw [splitOnChar_cons, if_neg hne, ih hrest]

/-- Splitting peels off one separator-free field before a separator. -/
theorem splitOnChar_sep_append {c : Char} {x rest : List Char} (h : c ∉ x) :
    splitOnChar c (x ++ c :: rest) = x :: splitOnChar c rest := by
  induction x with
  | nil => rw [List.nil_append, splitOnChar_cons, if_pos rfl]
  | cons a as ih =>
    have hne : ¬ (a = c) := fun hh => h (hh ▸ List.mem_cons_self a as)
    have hrest : c ∉ as := fun hh => h (List.mem_cons_of_mem a hh)
    rw [List.cons_append, splitOnChar_cons, if_neg hne, ih hrest]

/-- A dotted join of four dot-free fields splits back into the fields. -/
theorem splitOnChar_ipString {b0 b1 b2 b3 : List Char}
    (h0 : '.' ∉ b0) (h1 : '.' ∉ b1) (h2 : '.' ∉ b2) (h3 : '.' ∉ b3) :
    splitOnChar '.' (ipString b0 b1 b2 b3) = [b0, b1, b2, b3] := by
  unfold ipString
  rw [splitOnChar_sep_append h0, splitOnChar_sep_append h1, splitOnChar_sep_append h2,
      splitOnChar_no_sep h3]

theorem hasSuffix_append (x suf : List Char) : hasSuffix (x ++ suf) suf = true := by
  simp only [hasSuffix, decide_eq_true_eq]
  exact List.suffix_append x suf

theorem trimSuffix_append (x suf : List Char) : trimSuffix (x ++ suf) suf = x := by
  unfold trimSuffix
  rw [hasSuffix_append, if_pos rfl]
  have hl : (x ++ suf).length - suf.length = x.length := by
    simp [List.length_append]
  rw [hl, List.take_left]

/-- The `"/24"` shorthand branch of `generateIPs` on a four-field
dotted base: the exact address list produced, host numbers 1 to 254. -/
theorem generateIPs_quad24 (a b c d : Nat) :
    generateIPs (String.mk (ipString (natChars a) (natChars b) (natChars c) (natChars d)
        ++ "/24".data)) =
      .ok ((List.range' 1 254).map
        (fun i => String.mk (ipString (natChars a) (natChars b) (natChars c) (natChars i)))) := by
  unfold generateIPs
  show (if hasSuffix (ipString (natChars a) (natChars b) (natChars c) (natChars d)
      ++ "/24".data) "/24".data then _ else _) = _
  rw [hasSuffix_append, if_pos rfl, trimSuffix_append]
  simp only []
  rw [splitOnChar_ipString (dot_not_mem_natChars a) (dot_not_mem_natChars b)
      (dot_not_mem_natChars c) (dot_not_mem_natChars d)]

/-- C4 — for every valid `/24` input (a dotted-quad base, octets at most
255, followed by `"/24"`), `generateIPs` succeeds with exactly the 254
addresses that share the base's first three octets and carry host
numbers `.1` through `.254` in ascending order (the image of the
ascending range `1..254`). -/
theorem generateIPs_slash24_contract (a b c d : Nat)
    (ha : a ≤ 255) (hb : b ≤ 255) (hcv : c ≤ 255) (hd : d ≤ 255) :
    generateIPs (String.mk (ipString (natChars a) (natChars b) (natChars c) (natChars d)
        ++ "/24".data)) =
      .ok ((List.range' 1 254).map
        (fun i => String.mk (ipString (natChars a) (natChars b) (natChars c) (natChars i)))) ∧
    ((List.range' 1 254).map
        (fun i => String.mk (ipString (natChars a) (natChars b) (natChars c) (natChars i)))).length
      = 254 :=
  ⟨generateIPs_quad24 a b c d, by simp⟩

/-- Witness for C4 at the concrete network `"10.0.0.0/24"`. -/
theorem generateIPs_slash24_contract_witness :
    ((10 : Nat) ≤ 255) ∧
    generateIPs "10.0.0.0/24" = .ok ((List.range' 1 254).map
      (fun i => String.mk (ipString (natChars 10) (natChars 0) (natChars 0) (natChars i)))) := by
  have h := generateIPs_slash24_contract 10 0 0 0 (by decide) (by decide) (by decide) (by decide)
  refine ⟨by decide, ?_⟩
  have hs : String.mk (ipString (natChars 10) (natChars 0) (natChars 0) (natChars 0)
      ++ "/24".data) = "10.0.0.0/24" := by decide
  rw [← hs]
  exact h.1

/-- C3 counterexample — `"1.2.3/24"` is neither a valid `/24` shorthand
(its base has three fields, not four) nor parseable CIDR notation, yet
`generateIPs` returns a successful nil-error result: the empty list. -/
theorem generateIPs_invalid_counterexample :
    generateIPs "1.2.3/24" = .ok [] ∧ (generateIPs "1.2.3/24").isOk = true :=
  ⟨rfl, by decide⟩

/-- C3 amended — an error is returned only for inputs without the
`"/24"` suffix whose CIDR parse fails; every `"/24"`-suffixed input
succeeds with a nil error, producing the empty address list whenever
the base does not split into exactly four dot-separated fields. -/
theorem generateIPs_error_contract :
    (∀ s : String, hasSuffix s.data "/24".data = true → ∃ l, generateIPs s = .ok l) ∧
    (∀ s : String, hasSuffix s.data "/24".data = true →
      (splitOnChar '.' (trimSuffix s.data "/24".data)).length ≠ 4 → generateIPs s = .ok []) ∧
    (∀ s : String, hasSuffix s.data "/24".data = false → parseCIDR s.data = none →
      ∃ e, generateIPs s = .error e) := by
  refine ⟨?_, ?_, ?_⟩
  · intro s hsuf
    unfold generateIPs
    simp only []
    rw [hsuf, if_pos rfl]
    split
    · exact ⟨_, rfl⟩
    · exact ⟨_, rfl⟩
  · intro s hsuf hlen
    unfold generateIPs
    simp only []
    rw [hsuf, if_pos rfl]
    split
    · rename_i heq
      rw [heq] at hlen
      simp at hlen
    · rfl
  · intro s hsuf hcidr
    unfold generateIPs
    simp only []
    rw [hsuf]
    simp only [Bool.false_eq_true, if_false]
    rw [hcidr]
    exact ⟨_, rfl⟩

/-- Witness for C3 amended: the `"/24"`-suffixed input `"5.6.7.8/24"`
succeeds with a nil error. -/
theorem generateIPs_error_contract_witness :
    (hasSuffix "5.6.7.8/24".data "/24".data = true) ∧ ∃ l, generateIPs "5.6.7.8/24" = .ok l :=
  ⟨by decide, generateIPs_error_contract.1 "5.6.7.8/24" (by decide)⟩

/-- `List.filterMap` respects pointwise agreement on the list. -/
theorem filterMap_congr_mem {α β : Type} {f g : α → Option β} {l : List α}
    (h : ∀ a ∈ l, f a = g a) : l.filterMap f = l.filterMap g := by
  induction l with
  | nil => rfl
  | cons a as ih =>
    rw [List.filterMap_cons, List.filterMap_cons, h a (List.mem_cons_self a as),
      ih (fun x hx => h x (List.mem_cons_of_mem a hx))]

/-- For a non-empty requested port list, the host filters of the two
discovery variants coincide: `openPorts.length > 0 ∨ ports.length = 0`
collapses to `portResults.length > 0`. -/
theorem discoveryHosts_eq_workerPoolHosts (alive : String → Bool)
    (dial : String → Int → Bool) (bannerOf : String → Int → String)
    (ips : List String) (ports : List Int) (hp : ports ≠ []) :
    discoveryHosts alive dial bannerOf ips ports =
      workerPoolHosts alive dial bannerOf ips ports := by
  unfold discoveryHosts workerPoolHosts
  congr 1
  refine filterMap_congr_mem (fun ip _ => ?_)
  by_cases ha : alive ip
  · simp only [ha, if_true]
    have hpl : ¬ (ports.length = 0) := by
      intro hz
      exact hp (List.length_eq_zero.mp hz)
    by_cases ho : (openPortsOf dial bannerOf ip ports).length > 0
    · simp [ho, hpl]
    · simp [ho, hpl]
  · simp [ha]

/-- C2 amended — given identical probe outcomes, `NetworkDiscovery` and
`NetworkDiscoveryWorkerPool` return identical `ScanResult`s for every
network and every *non-empty* requested port list (same hosts, same
per-host port lists, same summary, same sorted order); they differ when
the port list is empty, where only `NetworkDiscovery` reports live
hosts. -/
theorem networkDiscovery_workerPool_agree (alive : String → Bool)
    (dial : String → Int → Bool) (bannerOf : String → Int → String)
    (network : String) (ports : List Int) (hp : ports ≠ []) :
    NetworkDiscovery alive dial bannerOf network ports =
      NetworkDiscoveryWorkerPool alive dial bannerOf network ports := by
  unfold NetworkDiscovery NetworkDiscoveryWorkerPool
  cases generateIPs network with
  | error e => rfl
  | ok ips => simp only [discoveryHosts_eq_workerPoolHosts alive dial bannerOf ips ports hp]

/-- Witness for C2 amended at a concrete input with one requested
port. -/
theorem networkDiscovery_workerPool_agree_witness :
    ([(80 : Int)] ≠ []) ∧
    NetworkDiscovery (fun _ => true) (fun _ _ => true) (fun _ _ => "") "1.2/24" [80] =
      NetworkDiscoveryWorkerPool (fun _ => true) (fun _ _ => true) (fun _ _ => "") "1.2/24" [80] :=
  ⟨by decide, networkDiscovery_workerPool_agree (fun _ => true) (fun _ _ => true)
    (fun _ _ => "") "1.2/24" [80] (by decide)⟩

set_option maxRecDepth 10000 in
/-- C2 counterexample — with every host alive, every port closed and an
empty requested port list on `"10.0.0.0/24"`, `NetworkDiscovery`
reports all 254 live hosts while `NetworkDiscoveryWorkerPool` reports
none: the two variants do not agree on whether a live host appears
when the requested port list is empty. -/
theorem networkDiscovery_workerPool_counterexample :
    ((NetworkDiscovery (fun _ => true) (fun _ _ => false) (fun _ _ => "") "10.0.0.0/24" []).map
        (fun r => r.Summary.LiveHosts) = .ok 254) ∧
    ((NetworkDiscoveryWorkerPool (fun _ => true) (fun _ _ => false) (fun _ _ => "")
        "10.0.0.0/24" []).map (fun r => r.Summary.LiveHosts) = .ok 0) ∧
    NetworkDiscovery (fun _ => true) (fun _ _ => false) (fun _ _ => "") "10.0.0.0/24" [] ≠
      NetworkDiscoveryWorkerPool (fun _ => true) (fun _ _ => false) (fun _ _ => "")
        "10.0.0.0/24" [] := by
  have c1 : (NetworkDiscovery (fun _ => true) (fun _ _ => false) (fun _ _ => "")
      "10.0.0.0/24" []).map (fun r => r.Summary.LiveHosts) = .ok 254 := rfl
  have c2 : (NetworkDiscoveryWorkerPool (fun _ => true) (fun _ _ => false) (fun _ _ => "")
      "10.0.0.0/24" []).map (fun r => r.Summary.LiveHosts) = .ok 0 := rfl
  refine ⟨c1, c2, fun heq => ?_⟩
  have h := congrArg (Except.map (fun r : ScanResult => r.Summary.LiveHosts)) heq
  rw [c1, c2] at h
  simp at h

/-- C8 — host results are sorted by ascending numeric IP: `sortHosts`
permutes its input into `hostLe` order (octet-by-octet numeric
comparison, never lexicographic string order); every successful
`PingSweep`, `NetworkDiscovery` and `NetworkDiscoveryWorkerPool` result
carries a `hostLe`-sorted host list; and the concrete input
`["10.0.0.10", "10.0.0.2", "10.0.0.1"]` comes out as
`10.0.0.1, 10.0.0.2, 10.0.0.10`. -/
theorem scan_results_sorted :
    (∀ hs : List HostResult,
      List.Perm (sortHosts hs) hs ∧ List.Sorted hostLe (sortHosts hs)) ∧
    (∀ (alive : String → Bool) (lat : String → Int) (network : String) (r : ScanResult),
      PingSweep alive lat network = .ok r → List.Sorted hostLe r.Hosts) ∧
    (∀ (alive : String → Bool) (dial : String → Int → Bool)
       (bannerOf : String → Int → String) (network : String) (ports : List Int)
       (r : ScanResult),
      NetworkDiscovery alive dial bannerOf network ports = .ok r →
        List.Sorted hostLe r.Hosts) ∧
    (∀ (alive : String → Bool) (dial : String → Int → Bool)
       (bannerOf : String → Int → String) (network : String) (ports : List Int)
       (r : ScanResult),
      NetworkDiscoveryWorkerPool alive dial bannerOf network ports = .ok r →
        List.Sorted hostLe r.Hosts) ∧
    sortHosts [{ IP := "10.0.0.10", Alive := true, Ports := [], Latency := 0 },
               { IP := "10.0.0.2", Alive := true, Ports := [], Latency := 0 },
               { IP := "10.0.0.1", Alive := true, Ports := [], Latency := 0 }] =
      [{ IP := "10.0.0.1", Alive := true, Ports := [], Latency := 0 },
       { IP := "10.0.0.2", Alive := true, Ports := [], Latency := 0 },
       { IP := "10.0.0.10", Alive := true, Ports := [], Latency := 0 }] := by
  refine ⟨fun hs => ⟨List.perm_insertionSort hostLe hs, List.sorted_insertionSort hostLe hs⟩,
    ?_, ?_, ?_, by decide⟩
  · intro alive lat network r h
    unfold PingSweep at h
    split at h
    · exact absurd h (by simp)
    · simp only [Except.ok.injEq] at h
      rw [← h]
      exact List.sorted_insertionSort hostLe _
  · intro alive dial bannerOf network ports r h
    unfold NetworkDiscovery at h
    split at h
    · exact absurd h (by simp)
    · simp only [Except.ok.injEq] at h
      rw [← h]
      exact List.sorted_insertionSort hostLe _
  · intro alive dial bannerOf network ports r h
    unfold NetworkDiscoveryWorkerPool at h
    split at h
    · exact absurd h (by simp)
    · simp only [Except.ok.injEq] at h
      rw [← h]
      exact List.sorted_insertionSort hostLe _

/-- Witness for C8: a concrete `PingSweep` run (base `"1.2"` has two
fields, so the address list is empty) whose returned host list is
sorted. -/
theorem scan_results_sorted_witness :
    PingSweep (fun _ => false) (fun _ => 0) "1.2/24" =
      .ok { Network := "1.2/24", Hosts := [],
            Summary := { TotalHosts := 0, LiveHosts := 0, TotalPorts := 0,
                         OpenPorts := 0, HostsScanned := 0, PortsScanned := 0 } } ∧
    List.Sorted hostLe ({ Network := "1.2/24", Hosts := [],
                          Summary := { TotalHosts := 0, LiveHosts := 0, TotalPorts := 0,
                                       OpenPorts := 0, HostsScanned := 0,
                                       PortsScanned := 0 } } : ScanResult).Hosts :=
  ⟨rfl, scan_results_sorted.2.1 (fun _ => false) (fun _ => 0) "1.2/24" _ rfl⟩

/-- Setting an `idle` slot to `active` increases the active count by
one. -/
theorem countActive_set_active {l : List ProbePhase} {i : Nat}
    (h : l.get? i = some ProbePhase.idle) :
    (l.set i ProbePhase.active).countP (fun p => decide (p = ProbePhase.active))
      = l.countP (fun p => decide (p = ProbePhase.active)) + 1 := by
  induction l generalizing i with
  | nil => simp at h
  | cons a as ih =>
    cases i with
    | zero =>
      simp only [List.get?] at h
      injection h with h
      subst h
      simp [List.set, List.countP_cons]
    | succ j =>
      simp only [List.get?] at h
      simp only [List.set, List.countP_cons, ih h]
      omega

/-- Setting an `active` slot to `done` decreases the active count by
one. -/
theorem countActive_set_done {l : List ProbePhase} {i : Nat}
    (h : l.get? i = some ProbePhase.active) :
    (l.set i ProbePhase.done).countP (fun p => decide (p = ProbePhase.active)) + 1
      = l.countP (fun p => decide (p = ProbePhase.active)) := by
  induction l generalizing i with
  | nil => simp at h
  | cons a as ih =>
    cases i with
    | zero =>
      simp only [List.get?] at h
      injection h with h
      subst h
      simp [List.set, List.countP_cons]
    | succ j =>
      simp only [List.get?] at h
      simp only [List.set, List.countP_cons, ← ih h]
      omega

/-- The semaphore invariant is preserved by every interleaving step. -/
theorem batchInv_step {C : Nat} {s t : BatchState}
    (hs : BatchInv C s) (h : BatchStep C s t) : BatchInv C t := by
  obtain ⟨h1, h2⟩ := hs
  unfold BatchInv activeProbes at *
  cases h with
  | acquire i hi hlt =>
    have hc := countActive_set_active hi
    constructor
    · dsimp only
      omega
    · dsimp only
      omega
  | release i hi =>
    have hc := countActive_set_done hi
    constructor
    · dsimp only
      omega
    · dsimp only
      omega

/-- The semaphore invariant holds in every reachable state. -/
theorem batchInv_reachable {C n : Nat} {s : BatchState}
    (h : BatchReachable C n s) : BatchInv C s := by
  induction h with
  | refl =>
    refine ⟨Eq.symm (List.countP_eq_zero.mpr ?_), Nat.zero_le C⟩
    intro a ha
    rw [List.eq_of_mem_replicate ha]
    decide
  | tail h1 h2 ih => exact batchInv_step ih h2

/-- C1 — for every work list and every concurrency limit `C`, the
batched executors never run more than `C` probe bodies simultaneously:
in every state any interleaving of a batch of `n` dispatched goroutines
can reach, the number of probe bodies executing between their semaphore
acquire and release is at most `C`.  `PingSweep` instantiates this with
`C = maxHostConcurrency` and probe body `pingHostFast`
(scanner.go:136-159); `ScanPorts` with `C = maxPortConcurrency` and
probe body `scanPortFast` (scanner.go:224-245). -/
theorem semaphore_bounds_active_probes (C n : Nat) (s : BatchState)
    (h : BatchReachable C n s) : activeProbes s ≤ C := by
  have hinv := batchInv_reachable h
  obtain ⟨h1, h2⟩ := hinv
  omega

/-- Witness for C1: with limit 1 and two goroutines, the state after
one acquire is reachable and has one active probe, within the bound. -/
theorem semaphore_bounds_active_probes_witness :
    BatchReachable 1 2 { sem := 1, tasks := [ProbePhase.active, ProbePhase.idle] } ∧
    activeProbes { sem := 1, tasks := [ProbePhase.active, ProbePhase.idle] } ≤ 1 := by
  have hr : BatchReachable 1 2 { sem := 1, tasks := [ProbePhase.active, ProbePhase.idle] } :=
    Relation.ReflTransGen.single
      (BatchStep.acquire (initBatch 2) 0 (by decide) (by decide))
  exact ⟨hr, semaphore_bounds_active_probes 1 2 _ hr⟩

/-- With a non-empty nameserver list the worker loop never fails and
produces exactly one result per domain, in order. -/
theorem processAll_cons_ok (q : String → String → Option String) (ns0 : String)
    (rest : List String) (ds : List String) :
    processAll q (ns0 :: rest) ds = some (ds.map (fun d =>
      { Domain := d, Success := (q d ns0).isNone, Error := q d ns0 })) := by
  induction ds with
  | nil => rfl
  | cons d dsr ih =>
    unfold processAll processSingleQuery
    rw [ih]
    rfl

/-- C9 — for every non-empty domain list and non-empty nameserver list,
`ProcessQuery` returns a `BulkSummary` with `TotalDomains` equal to the
number of domains, `Successful` equal to the number of domains whose
query returned no error, `Failed = TotalDomains - Successful`, and
exactly one `BulkResult` per input domain in order; a failing domain
yields `Success = false` with a non-nil `Error` and does not prevent
the other domains from appearing in the results. -/
theorem processQuery_contract (q : String → String → Option String)
    (domains : List String) (ns0 : String) (rest : List String)
    (hd : domains ≠ []) :
    ProcessQuery q domains (ns0 :: rest) = some {
      TotalDomains := domains.length,
      Successful := domains.countP (fun d => (q d ns0).isNone),
      Failed := domains.length - domains.countP (fun d => (q d ns0).isNone),
      Results := domains.map (fun d =>
        { Domain := d, Success := (q d ns0).isNone, Error := q d ns0 }) } ∧
    (domains.map (fun d =>
      ({ Domain := d, Success := (q d ns0).isNone,
         Error := q d ns0 } : BulkResult))).length = domains.length ∧
    (∀ r ∈ domains.map (fun d =>
      ({ Domain := d, Success := (q d ns0).isNone, Error := q d ns0 } : BulkResult)),
      r.Success = false → r.Error ≠ none) := by
  refine ⟨?_, List.length_map _ _, ?_⟩
  · unfold ProcessQuery
    rw [processAll_cons_ok]
    simp only [List.countP_map]
    rfl
  · intro r hr hfail
    rcases List.mem_map.1 hr with ⟨d, _, hdr⟩
    rw [← hdr] at hfail ⊢
    simp only [] at hfail ⊢
    cases hq : q d ns0 with
    | none => rw [hq] at hfail; simp at hfail
    | some e => exact Option.some_ne_none e

/-- Witness for C9: a bulk run over 5 domains in which exactly the
third domain's query errors yields totals 5 / 4 / 1 with that domain's
result unsuccessful and error-carrying. -/
theorem processQuery_contract_witness :
    (["a.example", "b.example", "c.example", "d.example", "e.example"] ≠ ([] : List String)) ∧
    ProcessQuery (fun d _ => if d = "c.example" then some "lookup failed" else none)
        ["a.example", "b.example", "c.example", "d.example", "e.example"] ["8.8.8.8"] =
      some { TotalDomains := 5, Successful := 4, Failed := 1,
             Results := [
               { Domain := "a.example", Success := true, Error := none },
               { Domain := "b.example", Success := true, Error := none },
               { Domain := "c.example", Success := false, Error := some "lookup failed" },
               { Domain := "d.example", Success := true, Error := none },
               { Domain := "e.example", Success := true, Error := none }] } := by
  refine ⟨by decide, ?_⟩
  have h := (processQuery_contract
    (fun d _ => if d = "c.example" then some "lookup failed" else none)
    ["a.example", "b.example", "c.example", "d.example", "e.example"] "8.8.8.8" []
    (by decide)).1
  rw [h]
  rfl

/-- C10 — `processSingleQuery` reads `nameservers[0]` unconditionally:
with a non-empty nameserver list it always produces a result, with the
empty list it has no value to return (Go panics with an index
out-of-range), and `ProcessQuery` over at least one domain with an
empty nameserver list is therefore not safe either. -/
theorem processSingleQuery_nameserver_safety :
    (∀ (queryErr : String → String → Option String) (nameservers : List String)
       (domain : String), nameservers ≠ [] →
      ∃ r, processSingleQuery queryErr nameservers domain = some r) ∧
    (∀ (queryErr : String → String → Option String) (domain : String),
      processSingleQuery queryErr [] domain = none) ∧
    (∀ (queryErr : String → String → Option String) (domain : String)
       (domains : List String),
      ProcessQuery queryErr (domain :: domains) [] = none) := by
  refine ⟨?_, fun _ _ => rfl, fun _ _ _ => rfl⟩
  intro queryErr nameservers domain hns
  cases nameservers with
  | nil => exact absurd rfl hns
  | cons ns rest => exact ⟨_, rfl⟩

/-- Witness for C10: a singleton nameserver list yields a result. -/
theorem processSingleQuery_nameserver_safety_witness :
    (["8.8.8.8"] ≠ ([] : List String)) ∧
    ∃ r, processSingleQuery (fun _ _ => none) ["8.8.8.8"] "example.com" = some r :=
  ⟨by decide, processSingleQuery_nameserver_safety.1 (fun _ _ => none) ["8.8.8.8"]
    "example.com" (by decide)⟩

end Sysadmin
